import Mathlib

/-!
Verification development for the DICOM importer's pixel-data extraction and
image-reconstruction pipeline (`src/services/dicom-service.ts`) and the
metadata-note element filter (`src/services/metadata-service.ts`).

Modelling conventions (shallow embedding of the TypeScript source):
* A Node `Buffer` / `Uint8Array` is a `List Nat` of byte values.  The parsed
  dataset's backing `byteArray` has byte offset 0 (as produced by
  `dicomParser.parseDicom(new Uint8Array(arrayBuffer))`).
* `Buffer.from(arrayBuffer, offset, length)` creates a *view* sharing memory
  with the source array; writes through the view are modelled by returning the
  updated backing list alongside the extracted data.
* JavaScript numbers used as array indices and lengths are modelled as `Int`
  where the source can produce negative intermediate values (the `| b << 24`
  reads, which coerce to signed 32-bit), and as `Nat` where they are always
  non-negative.  Out-of-range `Uint8Array` reads yield `undefined` in JS,
  which fails every `=== 0xFE`-style marker comparison; the model reads 0,
  which fails the same comparisons in every reachable combination.
* Floating-point values (`floatString` window/rescale attributes and the
  window/level arithmetic) are modelled as exact rationals `ℚ`.  The only
  division the reconstruction performs with a possibly-zero divisor has a zero
  numerator in every reachable state, where JS produces `NaN` and then stores
  byte 0, matching the rational model's `0 / 0 = 0` convention.
-/

namespace DicomImporter

/-- JavaScript `a || d` for an optional numeric field: `undefined` and `0` are
falsy and select the default, mirroring `dicomData.uint16(tag) || d`. -/
def jsOr (o : Option Nat) (d : Nat) : Nat :=
  match o with
  | none => d
  | some 0 => d
  | some n => n

/-- Byte range `[start, start+len)` of a list, as cut out by
`Buffer.from(buffer, start, len)`. -/
def sliceD (l : List Nat) (start len : Nat) : List Nat :=
  (l.drop start).take len

/-- Read one byte at a possibly negative index, as `byteArray[i]` does on a
`Uint8Array`: entries are bytes and out-of-range reads never match a marker. -/
def byteAt (l : List Nat) (i : Int) : Nat :=
  if 0 ≤ i then (l.getD i.toNat 0) % 256 else 0

/-- Coerce to a signed 32-bit value, as JavaScript bitwise `|` does. -/
def jsToInt32 (n : Nat) : Int :=
  if n % 4294967296 < 2147483648 then ((n % 4294967296 : Nat) : Int)
  else ((n % 4294967296 : Nat) : Int) - 4294967296

/-- The 4-byte little-endian length read
`b[p] | (b[p+1] << 8) | (b[p+2] << 16) | (b[p+3] << 24)` from
`extractJPEG2000Data`; the bitwise OR of the disjoint byte fields equals their
sum, and the final `| << 24` coerces the result to signed 32-bit. -/
def readInt32LE (l : List Nat) (p : Int) : Int :=
  jsToInt32 (byteAt l p + 256 * byteAt l (p + 1) + 65536 * byteAt l (p + 2) +
    16777216 * byteAt l (p + 3))

/-- One DICOM element as exposed by `dicomParser`: a byte range into the
dataset's backing array (tag `x7fe00010` for pixel data). -/
structure DicomElement where
  dataOffset : Nat
  length : Nat
deriving DecidableEq, Repr

/-- A parsed dataset (`dicomParser.DataSet`): the backing byte array plus the
accessor results the conversion pipeline reads.  `pixelData` is
`elements[DicomTags.PixelData]`; the `Option Nat` fields are the
`uint16(tag)` accessors, the `Option String` field is `string(x00020010)`,
and the `Option ℚ` fields are the `floatString` accessors
(`x00281050/x00281051/x00281053/x00281052`); `none` models `undefined`. -/
structure DataSet where
  byteArray : List Nat
  pixelData : Option DicomElement
  transferSyntax : Option String
  rows : Option Nat
  columns : Option Nat
  bitsAllocated : Option Nat
  pixelRepresentation : Option Nat
  samplesPerPixel : Option Nat
  windowCenter : Option ℚ
  windowWidth : Option ℚ
  rescaleSlope : Option ℚ
  rescaleIntercept : Option ℚ
deriving DecidableEq, Repr

/-- Result of `extractPixelData`, together with the dataset backing array as
it stands after the call (the returned `Buffer` for the uncompressed paths is
a view into it, and the big-endian path writes through that view). -/
structure PixelResult where
  byteArray : List Nat
  data : List Nat
  needsDecompression : Bool
deriving DecidableEq, Repr

/-- The in-place 16-bit byte swap of the big-endian branch of
`extractPixelData`: `for (i = 0; i < len; i += 2) swap(b[i], b[i+1])`.
An odd trailing byte is overwritten with 0 (`buffer[i] = ToUint8(undefined)`)
while the out-of-range partner write is dropped. -/
def swapPairs : List Nat → List Nat
  | [] => []
  | [_] => [0]
  | a :: b :: rest => b :: a :: swapPairs rest

/-- The `extractJPEG2000Data` method: skip a Basic Offset Table fragment if
the item marker `FE FF 00 E0` is present at the pixel-data offset, then return
the payload of the following fragment.  Positions are `Int` because the
4-byte length reads coerce to signed 32-bit; the final `Buffer.from` raises a
`RangeError` when the item length runs past the backing array. -/
def extractJPEG2000Data (byteArray : List Nat) (dataOffset : Nat) :
    Except String (List Nat × Bool) :=
  let pos0 : Int := dataOffset
  let position : Int :=
    if byteAt byteArray pos0 = 0xFE ∧ byteAt byteArray (pos0 + 1) = 0xFF ∧
        byteAt byteArray (pos0 + 2) = 0x00 ∧ byteAt byteArray (pos0 + 3) = 0xE0 then
      pos0 + 8 + readInt32LE byteArray (pos0 + 4)
    else pos0
  if position < (byteArray.length : Int) - 8 ∧
      byteAt byteArray position = 0xFE ∧ byteAt byteArray (position + 1) = 0xFF ∧
      byteAt byteArray (position + 2) = 0x00 ∧ byteAt byteArray (position + 3) = 0xE0 then
    let itemLength : Int := readInt32LE byteArray (position + 4)
    if 0 ≤ itemLength ∧ position + 8 + itemLength ≤ (byteArray.length : Int) then
      Except.ok (sliceD byteArray (position + 8).toNat itemLength.toNat, true)
    else Except.error "RangeError"
  else Except.error "Could not find JPEG2000 stream after Basic Offset Table"

/-- The inner loop of `extractJPEGLosslessData`: starting at `pos`, the first
index `p` with `p < length - 2` whose bytes match the two-byte marker
`a b`. -/
def scanFrom (bytes : List Nat) (a b : Nat) (pos : Nat) : Option Nat :=
  (List.range' pos (bytes.length - 2 - pos)).find? fun p =>
    bytes.getD p 0 == a && bytes.getD (p + 1) 0 == b

/-- The nested marker search of `extractJPEGLosslessData`: scan for an SOI
marker `FF D8`; on each hit scan onward for an EOI marker `FF D9`; if the
inner scan fails, resume the outer scan at the next byte. -/
def jpegScan (bytes : List Nat) (pos : Nat) : Option (Nat × Nat) :=
  if h : pos < bytes.length - 2 then
    if bytes.getD pos 0 = 0xFF ∧ bytes.getD (pos + 1) 0 = 0xD8 then
      match scanFrom bytes 0xFF 0xD9 (pos + 2) with
      | some e => some (pos, e)
      | none => jpegScan bytes (pos + 1)
    else jpegScan bytes (pos + 1)
  else none
termination_by bytes.length - 2 - pos
decreasing_by all_goals omega

/-- The `extractJPEGLosslessData` method: return the inclusive SOI..EOI byte
range found by the nested scan, or fail. -/
def extractJPEGLosslessData (byteArray : List Nat) (dataOffset : Nat) :
    Except String (List Nat × Bool) :=
  match jpegScan byteArray dataOffset with
  | some (p, e) => Except.ok (sliceD byteArray p (e - p + 2), true)
  | none => Except.error "Could not find valid JPEG Lossless frame in DICOM data"

/-- The `extractPixelData` method.  For the three uncompressed transfer
syntaxes the returned data is a view of the backing array; under Explicit VR
Big Endian every 16-bit pair of that view is swapped in place, so the
post-call backing array differs from the input.  `Buffer.from` raises a
`RangeError` when the element's range exceeds the backing array. -/
def extractPixelData (ds : DataSet) : Except String PixelResult :=
  match ds.pixelData with
  | none => Except.error "No pixel data found in DICOM file"
  | some el =>
    let ts := ds.transferSyntax
    if ts = some "1.2.840.10008.1.2.1" ∨ ts = some "1.2.840.10008.1.2" ∨
        ts = some "1.2.840.10008.1.2.2" then
      if ds.byteArray.length < el.dataOffset + el.length then
        Except.error "RangeError"
      else
        let buffer := sliceD ds.byteArray el.dataOffset el.length
        if ts = some "1.2.840.10008.1.2.2" then
          let swapped := swapPairs buffer
          Except.ok
            { byteArray := ds.byteArray.take el.dataOffset ++ swapped ++
                ds.byteArray.drop (el.dataOffset + el.length),
              data := swapped, needsDecompression := false }
        else
          Except.ok { byteArray := ds.byteArray, data := buffer, needsDecompression := false }
    else if ts = some "1.2.840.10008.1.2.4.90" ∨ ts = some "1.2.840.10008.1.2.4.91" then
      match extractJPEG2000Data ds.byteArray el.dataOffset with
      | Except.ok (d, b) =>
        Except.ok { byteArray := ds.byteArray, data := d, needsDecompression := b }
      | Except.error e => Except.error e
    else if ts = some "1.2.840.10008.1.2.4.70" then
      match extractJPEGLosslessData ds.byteArray el.dataOffset with
      | Except.ok (d, b) =>
        Except.ok { byteArray := ds.byteArray, data := d, needsDecompression := b }
      | Except.error e => Except.error e
    else Except.error "Unsupported transfer syntax"

/-- JavaScript `Number.MAX_VALUE`, the initial accumulator of the auto-window
minimum scan, as an exact rational. -/
def jsMaxValue : ℚ := (2 ^ 53 - 1) * 2 ^ 971

/-- JavaScript `Number.MIN_VALUE` (the smallest positive double, not the most
negative one), the initial accumulator of the auto-window maximum scan. -/
def jsMinValue : ℚ := 1 / 2 ^ 1074

/-- JavaScript `Math.round`: round half toward positive infinity.
Written with the executable `Rat.floor`; `jsRound_eq_floor` relates it to the
mathematical floor. -/
def jsRound (q : ℚ) : ℤ := (q + 1 / 2).floor

/-- The rounding helper agrees with the mathematical floor of `q + 1/2`. -/
theorem jsRound_eq_floor (q : ℚ) : jsRound q = ⌊q + 1 / 2⌋ := by
  rw [jsRound, Rat.floor_def', ← Rat.floor_def]

/-- The clamp `Math.max(0, Math.min(1, x))` of the normalization step. -/
def clamp01 (x : ℚ) : ℚ := max 0 (min 1 x)

/-- JavaScript truthiness of an optional numeric attribute: `undefined` and 0
are falsy, so `!windowCenter || !windowWidth` holds exactly when either
accessor returned `undefined` or the value 0. -/
def jsTruthy (o : Option ℚ) : Prop := o.getD 0 ≠ 0

instance (o : Option ℚ) : Decidable (jsTruthy o) := by
  unfold jsTruthy; infer_instance

/-- The auto-window minimum scan: `min` folded over the samples starting from
`Number.MAX_VALUE`. -/
def autoMin (pixels : List ℤ) : ℚ :=
  pixels.foldl (fun m v => min m (v : ℚ)) jsMaxValue

/-- The auto-window maximum scan: `max` folded over the samples starting from
`Number.MIN_VALUE` (a tiny positive number). -/
def autoMax (pixels : List ℤ) : ℚ :=
  pixels.foldl (fun m v => max m (v : ℚ)) jsMinValue

/-- The window-selection step of `convertRawToImage`: dataset
`windowCenter`/`windowWidth` when both are truthy, otherwise the auto-computed
`center = (max + min) / 2`, `width = max - min`. -/
def selectWindow (wc ww : Option ℚ) (pixels : List ℤ) : ℚ × ℚ :=
  if jsTruthy wc ∧ jsTruthy ww then (wc.getD 0, ww.getD 0)
  else
    let mn := autoMin pixels
    let mx := autoMax pixels
    ((mx + mn) / 2, mx - mn)

/-- `DataView.getInt16` on two bytes with the given endianness flag. -/
def int16OfBytes (b0 b1 : Nat) (littleEndian : Bool) : ℤ :=
  let u := if littleEndian then (b1 % 256) * 256 + b0 % 256 else (b0 % 256) * 256 + b1 % 256
  if u < 32768 then (u : ℤ) else (u : ℤ) - 65536

/-- The pixel-read loop of `convertRawToImage`:
`for (i = 0; i < pixelCount && i*2+1 < pixelData.length; i++)
  pixels[i] = view.getInt16(i*2, littleEndian)`.
The guard `i*2+1 < length` is monotone in `i`, so stopping at its first
failure leaves exactly the tail of the zero-initialized `Int16Array`. -/
def readPixels (bytes : List Nat) (count : Nat) (littleEndian : Bool) : List ℤ :=
  (List.range count).map fun i =>
    if 2 * i + 1 < bytes.length then
      int16OfBytes (bytes.getD (2 * i) 0) (bytes.getD (2 * i + 1) 0) littleEndian
    else 0

/-- One sample's 8-bit intensity:
`Math.round(Math.max(0, Math.min(1, (v - low) / (high - low))) * 255)`. -/
def windowIntensity (low high : ℚ) (v : ℚ) : ℤ :=
  jsRound (clamp01 ((v - low) / (high - low)) * 255)

/-- The PNG scanline buffer of `convertRawToImage`: for each row a filter-type
byte 0 followed by the row's windowed intensities. -/
def buildImageData (rows columns : Nat) (pixels : List ℤ) (low high : ℚ) : List Nat :=
  ((List.range rows).map fun y =>
    0 :: ((List.range columns).map fun x =>
      (windowIntensity low high ((pixels.getD (y * columns + x) 0 : ℤ) : ℚ)).toNat)).flatten

/-- The raster output of `convertRawToImage` before PNG container encoding:
dimensions and the uncompressed scanline bytes.  The remainder of the source
function applies `zlib.deflateSync` (a fixed, deterministic, injective
lossless compressor from an external library) to `imageData` and wraps the
result in the IHDR/IDAT/IEND chunks built by `createPNGChunk`, so the final
PNG byte string is a pure injective function of this structure. -/
structure RasterOutput where
  columns : Nat
  rows : Nat
  imageData : List Nat
deriving DecidableEq, Repr

/-- The `convertRawToImage` method up to PNG container encoding.  It also
reads `pixelRepresentation` and `samplesPerPixel`, but neither affects the
output; note that it reads *no* rescale attributes. -/
def convertRawToImage (pixelData : List Nat) (ds : DataSet) : Except String RasterOutput :=
  let columns := jsOr ds.columns 0
  let rows := jsOr ds.rows 0
  let bitsAllocated := jsOr ds.bitsAllocated 16
  let expectedLength : ℚ := (rows : ℚ) * (columns : ℚ) * ((bitsAllocated : ℚ) / 8)
  if (pixelData.length : ℚ) < expectedLength then
    Except.error "Invalid pixel data length"
  else
    let littleEndian := ds.transferSyntax != some "1.2.840.10008.1.2.2"
    let pixelCount := rows * columns
    let pixels := readPixels pixelData pixelCount littleEndian
    let cw := selectWindow ds.windowCenter ds.windowWidth pixels
    Except.ok
      { columns := columns, rows := rows,
        imageData := buildImageData rows columns pixels (cw.1 - cw.2 / 2) (cw.1 + cw.2 / 2) }

/-- One conversion pass as exercised by `convertToImage` on an uncompressed
dataset: extract the pixel data (possibly mutating the dataset's backing
array through the shared view) and reconstruct the raster from it. -/
def pipeline (ds : DataSet) : Except String (DataSet × RasterOutput) :=
  match extractPixelData ds with
  | Except.error e => Except.error e
  | Except.ok r =>
    let ds' := { ds with byteArray := r.byteArray }
    match convertRawToImage r.data ds' with
    | Except.error e => Except.error e
    | Except.ok out => Except.ok (ds', out)

/-- The `toBytes(num, n)` helper: the `n` low-order bytes of a number,
most significant first (`result[i] = num & 0xff; num >>= 8` from `i = n-1`
down to 0).  JS applies this to possibly negative signed-32-bit CRC values;
`&` and the arithmetic shift then read off the two's-complement bytes, which
coincide with the bytes of the value's unsigned-32-bit representative, the
form this model keeps throughout. -/
def toBytes (num : Nat) : Nat → List Nat
  | 0 => []
  | n + 1 => toBytes (num >>> 8) n ++ [num &&& 255]

/-- One round of the inner loop of `createCRCTable`:
`c = (c & 1) ? 0xedb88320 ^ (c >>> 1) : (c >>> 1)`. -/
def crcBitStep (c : Nat) : Nat :=
  if c &&& 1 = 1 then 0xedb88320 ^^^ (c >>> 1) else c >>> 1

/-- One entry of the CRC table built by `createCRCTable`: eight rounds of
`crcBitStep` applied to the index.  Values are the unsigned-32-bit
representatives of the JS signed results. -/
def crcTableEntry (i : Nat) : Nat :=
  crcBitStep (crcBitStep (crcBitStep (crcBitStep
    (crcBitStep (crcBitStep (crcBitStep (crcBitStep i)))))))

/-- One step of the `calculateCRC` loop:
`crc = crcTable[(crc ^ data[i]) & 0xff] ^ (crc >>> 8)`. -/
def crcUpdate (crc b : Nat) : Nat :=
  crcTableEntry ((crc ^^^ b) &&& 255) ^^^ (crc >>> 8)

/-- The `calculateCRC` method: the standard CRC-32 (reflected polynomial
`0xEDB88320`, initial value `0xFFFFFFFF`, final XOR `0xFFFFFFFF`) over a byte
list. -/
def calculateCRC (data : List Nat) : Nat :=
  (data.foldl crcUpdate 0xffffffff) ^^^ 0xffffffff

/-- The `createPNGChunk` method: 4-byte big-endian data length, the 4-byte
ASCII type, the data, then the 4-byte big-endian CRC-32 over type ++ data. -/
def createPNGChunk (type data : List Nat) : List Nat :=
  toBytes data.length 4 ++ type ++ data ++ toBytes (calculateCRC (type ++ data)) 4

/-- A value stored into the metadata record of `createMetadataNote`. -/
inductive MetaValue where
  | num (q : ℚ)
  | int (n : Nat)
  | str (s : String)
deriving DecidableEq, Repr

/-- One dataset element as seen by the `createMetadataNote` loop: its tag and
byte length plus the typed accessor results the loop can request.
`floatVal = none` models both an absent value and a `NaN` parse (both are
skipped identically).  For tag `x00232080`, `hl7Throws` records whether
`HL7Parser.parseHL7` throws and `hl7Report` the formatted report when it does
not (`none` for an empty, falsy report). -/
structure MetaElement where
  tag : String
  length : Nat
  vr : Option String
  floatVal : Option ℚ
  uintVal : Option Nat
  strVal : Option String
  hl7Throws : Bool
  hl7Report : Option String
deriving DecidableEq, Repr

/-- The `tagsToSkip` set of `createMetadataNote` (with `DicomTags.PixelData =
x7fe00010` duplicating the literal). -/
def tagsToSkip : List String :=
  ["x7fe00010", "x7fe00010", "x00880200", "x00880904", "x00880906", "x00880910", "x00880912"]

/-- The `looksLikeBinaryData` heuristic: more than 15% non-printable
characters, or length over 100 with no space.  Lean characters stand in for
UTF-16 code units; the ratio test divides exactly as JS does. -/
def looksLikeBinaryData (s : String) : Bool :=
  if s = "" then false
  else
    let codes := s.data.map Char.toNat
    let nonPrintable := (codes.filter fun c => c < 32 ∨ (126 < c ∧ c < 160)).length
    if (nonPrintable : ℚ) / (s.length : ℚ) > 15 / 100 then true
    else if 100 < s.length ∧ ¬s.contains ' ' then true
    else false

/-- The per-element body of the `createMetadataNote` loop, returning the
key/value pair added to the metadata record, if any.  `descName` stands for
`DicomTags.getDescriptiveName`. -/
def metadataEntry (descName : String → String) (e : MetaElement) : Option (String × MetaValue) :=
  if e.tag ∈ tagsToSkip then none
  else if 128 < e.length then none
  else
    let value : Option MetaValue :=
      if e.vr = some "DS" ∨ e.vr = some "FL" ∨ e.vr = some "FD" then
        e.floatVal.map MetaValue.num
      else if e.vr = some "IS" ∨ e.vr = some "SL" ∨ e.vr = some "SS" ∨
          e.vr = some "UL" ∨ e.vr = some "US" then
        e.uintVal.map MetaValue.int
      else if e.vr = some "OB" ∨ e.vr = some "OW" ∨ e.vr = some "UN" then none
      else
        match e.strVal with
        | none => none
        | some s => if looksLikeBinaryData s then none else some (MetaValue.str s)
    match value with
    | none => none
    | some v =>
      if v = MetaValue.str "" then none
      else if e.tag = "x00232080" then
        if e.hl7Throws then some (descName e.tag, v)
        else e.hl7Report.map fun r => ("__structuredContent", MetaValue.str r)
      else some (descName e.tag, v)

/-- The metadata record accumulated by the `createMetadataNote` loop, as the
list of key/value pairs it assigns (later assignments to a key shadow earlier
ones when the record is read back). -/
def createMetadataMap (descName : String → String) (elements : List MetaElement) :
    List (String × MetaValue) :=
  elements.foldl (fun m e =>
    match metadataEntry descName e with
    | none => m
    | some kv => m ++ [kv]) []

/-- Modelled from the claim's reading of the spec, for comparison with the
source pipeline: the per-sample value the spec prescribes,
`raw * rescaleSlope + rescaleIntercept` with defaults 1 and 0. -/
def specRescaledSample (slope intercept : Option ℚ) (raw : ℤ) : ℚ :=
  (raw : ℚ) * slope.getD 1 + intercept.getD 0

/-- A minimal Explicit VR Big Endian dataset: a 1×1 16-bit image whose
pixel-data element is the whole 2-byte backing array `01 02` (the big-endian
encoding of the sample value 258), with window center 258 and width 2. -/
def sampleBE : DataSet :=
  { byteArray := [1, 2], pixelData := some ⟨0, 2⟩,
    transferSyntax := some "1.2.840.10008.1.2.2",
    rows := some 1, columns := some 1, bitsAllocated := none,
    pixelRepresentation := none, samplesPerPixel := none,
    windowCenter := some 258, windowWidth := some 2,
    rescaleSlope := none, rescaleIntercept := none }

/-- The dataset `sampleBE` as it stands after one extraction pass byte-swapped
its pixel region in place. -/
def sampleBEswapped : DataSet := { sampleBE with byteArray := [2, 1] }

/-- A little-endian 1×1 dataset with raw sample 10, rescale slope 2 and
intercept 100, and window center 120 = 2·10 + 100, width 2. -/
def sampleLE : DataSet :=
  { sampleBE with
    transferSyntax := some "1.2.840.10008.1.2.1", byteArray := [10, 0],
    windowCenter := some 120, windowWidth := some 2,
    rescaleSlope := some 2, rescaleIntercept := some 100 }

/-- A little-endian 1×2 dataset with samples 10 and 20 whose window attributes
are both present but whose center is the (falsy) value 0. -/
def sampleZeroCenter : DataSet :=
  { sampleBE with
    transferSyntax := some "1.2.840.10008.1.2.1",
    byteArray := [10, 0, 20, 0], columns := some 2,
    windowCenter := some 0, windowWidth := some 100 }

/-- Every successful extraction under a transfer syntax other than Explicit VR
Big Endian returns the dataset's backing array unchanged: only the big-endian
branch writes through the shared `Buffer` view. -/
theorem extract_ok_byteArray_eq {ds : DataSet} {r : PixelResult}
    (hts : ds.transferSyntax ≠ some "1.2.840.10008.1.2.2")
    (h : extractPixelData ds = Except.ok r) : r.byteArray = ds.byteArray := by
  unfold extractPixelData at h
  cases hpd : ds.pixelData with
  | none => rw [hpd] at h; exact absurd h (by simp)
  | some el =>
    rw [hpd] at h
    simp only at h
    repeat' split at h
    all_goals first
      | exact absurd (by assumption) hts
      | exact Except.noConfusion h
      | (injection h with h2; rw [← h2])

/-- When both window attributes are truthy (present and non-zero), the
window-selection step returns them. -/
theorem selectWindow_truthy (wc ww : Option ℚ) (pixels : List ℤ)
    (hc : wc.getD 0 ≠ 0) (hw : ww.getD 0 ≠ 0) :
    selectWindow wc ww pixels = (wc.getD 0, ww.getD 0) := by
  unfold selectWindow
  rw [if_pos ⟨hc, hw⟩]

/-- When either window attribute is falsy (absent or zero), the
window-selection step auto-computes from the scanned extrema. -/
theorem selectWindow_fallback (wc ww : Option ℚ) (pixels : List ℤ)
    (h : wc.getD 0 = 0 ∨ ww.getD 0 = 0) :
    selectWindow wc ww pixels =
      ((autoMax pixels + autoMin pixels) / 2, autoMax pixels - autoMin pixels) := by
  unfold selectWindow
  rw [if_neg]
  rcases h with h | h <;> simp [jsTruthy, h]

/-- An element longer than 128 bytes contributes nothing to the metadata
record, whatever its tag, VR or decoded value. -/
theorem metadataEntry_long (dn : String → String) (e : MetaElement)
    (h : 128 < e.length) : metadataEntry dn e = none := by
  simp [metadataEntry, h]

/-- The metadata record only ever sees elements of length at most 128. -/
theorem createMetadataMap_filter (dn : String → String) (elements : List MetaElement) :
    createMetadataMap dn elements =
      createMetadataMap dn (elements.filter fun e => decide (e.length ≤ 128)) := by
  unfold createMetadataMap
  suffices h : ∀ (l : List MetaElement) (init : List (String × MetaValue)),
      l.foldl (fun m e => match metadataEntry dn e with | none => m | some kv => m ++ [kv]) init =
      (l.filter fun e => decide (e.length ≤ 128)).foldl
        (fun m e => match metadataEntry dn e with | none => m | some kv => m ++ [kv]) init by
    exact h elements []
  intro l
  induction l with
  | nil => intro init; rfl
  | cons e t ih =>
    intro init
    by_cases hle : e.length ≤ 128
    · rw [List.filter_cons, if_pos (by simpa using hle)]
      exact ih _
    · rw [List.filter_cons, if_neg (by simpa using hle)]
      simp only [List.foldl_cons, metadataEntry_long dn e (by omega)]
      exact ih init

/-- Intensity of the first-pass big-endian sample 513 under window (258, 2). -/
theorem wIntensity513 :
    windowIntensity (258 - 2 / 2) (258 + 2 / 2) ((513 : ℤ) : ℚ) = 255 := by
  unfold windowIntensity clamp01
  rw [jsRound_eq_floor]
  norm_num

/-- Intensity of the second-pass big-endian sample 258 under window (258, 2). -/
theorem wIntensity258 :
    windowIntensity (258 - 2 / 2) (258 + 2 / 2) ((258 : ℤ) : ℚ) = 128 := by
  unfold windowIntensity clamp01
  rw [jsRound_eq_floor]
  norm_num

/-- Intensity of raw sample 10 under window (120, 2). -/
theorem wIntensity10 :
    windowIntensity (120 - 2 / 2) (120 + 2 / 2) ((10 : ℤ) : ℚ) = 0 := by
  unfold windowIntensity clamp01
  rw [jsRound_eq_floor]
  norm_num

/-- Intensity of sample 10 under the auto window (15, 10), i.e. range 10..20. -/
theorem wIntensityAuto10 : windowIntensity 10 20 ((10 : ℤ) : ℚ) = 0 := by
  unfold windowIntensity clamp01
  rw [jsRound_eq_floor]
  norm_num

/-- Intensity of sample 20 under the auto window (15, 10). -/
theorem wIntensityAuto20 : windowIntensity 10 20 ((20 : ℤ) : ℚ) = 255 := by
  unfold windowIntensity clamp01
  rw [jsRound_eq_floor]
  norm_num

/-- Auto-window minimum of samples 10, 20. -/
theorem autoMin_10_20 : autoMin [10, 20] = 10 := by
  show min (min ((2 ^ 53 - 1) * 2 ^ 971 : ℚ) ((10 : ℤ) : ℚ)) ((20 : ℤ) : ℚ) = 10
  norm_num [min_def]

/-- Auto-window maximum of samples 10, 20. -/
theorem autoMax_10_20 : autoMax [10, 20] = 20 := by
  show max (max (1 / 2 ^ 1074 : ℚ) ((10 : ℤ) : ℚ)) ((20 : ℤ) : ℚ) = 20
  norm_num [max_def]

/-- Reconstruction of the byte-swapped big-endian data `02 01`: read
big-endian as 513, windowed by (258, 2) to intensity 255. -/
theorem convert_swapped_sampleBE :
    convertRawToImage [2, 1] sampleBEswapped = Except.ok ⟨1, 1, [0, 255]⟩ := by
  unfold convertRawToImage
  dsimp only [sampleBEswapped, sampleBE, jsOr]
  rw [if_neg (by norm_num)]
  rw [show ((some "1.2.840.10008.1.2.2" : Option String) !=
    some "1.2.840.10008.1.2.2") = false from rfl]
  rw [show readPixels [2, 1] (1 * 1) false = [513] from by decide]
  rw [selectWindow_truthy (some 258) (some 2) _ (by norm_num) (by norm_num)]
  dsimp only [Option.getD, buildImageData]
  simp only [List.range_succ, List.range_zero, List.nil_append, List.map_cons, List.map_nil,
    List.flatten, List.getD_cons_zero, Nat.zero_mul, Nat.add_zero, Nat.zero_add,
    List.append_nil, Except.ok.injEq, RasterOutput.mk.injEq, List.cons.injEq, true_and,
    and_true]
  rw [wIntensity513]
  rfl

/-- Reconstruction of the twice-swapped data `01 02`: read big-endian as 258,
windowed by (258, 2) to intensity 128. -/
theorem convert_restored_sampleBE :
    convertRawToImage [1, 2] sampleBE = Except.ok ⟨1, 1, [0, 128]⟩ := by
  unfold convertRawToImage
  dsimp only [sampleBE, jsOr]
  rw [if_neg (by norm_num)]
  rw [show ((some "1.2.840.10008.1.2.2" : Option String) !=
    some "1.2.840.10008.1.2.2") = false from rfl]
  rw [show readPixels [1, 2] (1 * 1) false = [258] from by decide]
  rw [selectWindow_truthy (some 258) (some 2) _ (by norm_num) (by norm_num)]
  dsimp only [Option.getD, buildImageData]
  simp only [List.range_succ, List.range_zero, List.nil_append, List.map_cons, List.map_nil,
    List.flatten, List.getD_cons_zero, Nat.zero_mul, Nat.add_zero, Nat.zero_add,
    List.append_nil, Except.ok.injEq, RasterOutput.mk.injEq, List.cons.injEq, true_and,
    and_true]
  rw [wIntensity258]
  rfl

/-- Reconstruction of the little-endian sample 10 under window (120, 2). -/
theorem convert_sampleLE :
    convertRawToImage [10, 0] sampleLE = Except.ok ⟨1, 1, [0, 0]⟩ := by
  unfold convertRawToImage
  dsimp only [sampleLE, sampleBE, jsOr]
  rw [if_neg (by norm_num)]
  rw [show ((some "1.2.840.10008.1.2.1" : Option String) !=
    some "1.2.840.10008.1.2.2") = true from rfl]
  rw [show readPixels [10, 0] (1 * 1) true = [10] from by decide]
  rw [selectWindow_truthy (some 120) (some 2) _ (by norm_num) (by norm_num)]
  dsimp only [Option.getD, buildImageData]
  simp only [List.range_succ, List.range_zero, List.nil_append, List.map_cons, List.map_nil,
    List.flatten, List.getD_cons_zero, Nat.zero_mul, Nat.add_zero, Nat.zero_add,
    List.append_nil, Except.ok.injEq, RasterOutput.mk.injEq, List.cons.injEq, true_and,
    and_true]
  rw [wIntensity10]
  rfl

/-- Reconstruction of the zero-center dataset: the window attributes (0, 100)
are ignored and the auto window (15, 10) drives the mapping. -/
theorem convert_sampleZeroCenter :
    convertRawToImage [10, 0, 20, 0] sampleZeroCenter = Except.ok ⟨2, 1, [0, 0, 255]⟩ := by
  unfold convertRawToImage
  dsimp only [sampleZeroCenter, sampleBE, jsOr]
  rw [if_neg (by norm_num)]
  rw [show ((some "1.2.840.10008.1.2.1" : Option String) !=
    some "1.2.840.10008.1.2.2") = true from rfl]
  rw [show readPixels [10, 0, 20, 0] (1 * 2) true = [10, 20] from by decide]
  rw [selectWindow_fallback (some 0) (some 100) _ (Or.inl (by norm_num))]
  rw [autoMin_10_20, autoMax_10_20]
  dsimp only [buildImageData]
  simp only [List.range_succ, List.range_zero, List.nil_append, List.cons_append,
    List.map_cons, List.map_nil, List.flatten, List.getD_cons_zero, List.getD_cons_succ,
    Nat.zero_mul, Nat.add_zero, Nat.zero_add, List.append_nil, Except.ok.injEq,
    RasterOutput.mk.injEq, List.cons.injEq, true_and, and_true]
  rw [show ((20 : ℚ) + 10) / 2 - (20 - 10) / 2 = 10 from by norm_num,
    show ((20 : ℚ) + 10) / 2 + (20 - 10) / 2 = 20 from by norm_num]
  rw [wIntensityAuto10, wIntensityAuto20]
  exact ⟨rfl, rfl⟩

/-- The full first pass over the big-endian sample dataset. -/
theorem pipeline_sampleBE_eval :
    pipeline sampleBE = Except.ok (sampleBEswapped, ⟨1, 1, [0, 255]⟩) := by
  unfold pipeline
  rw [show extractPixelData sampleBE =
    Except.ok { byteArray := [2, 1], data := [2, 1], needsDecompression := false } from rfl]
  dsimp only
  rw [show convertRawToImage [2, 1] { sampleBE with byteArray := [2, 1] } =
    Except.ok ⟨1, 1, [0, 255]⟩ from convert_swapped_sampleBE]
  rfl

/-- The second pass: the in-place swap restored the original byte order, and
the output differs from the first pass. -/
theorem pipeline_sampleBE_second_eval :
    pipeline sampleBEswapped = Except.ok (sampleBE, ⟨1, 1, [0, 128]⟩) := by
  unfold pipeline
  rw [show extractPixelData sampleBEswapped =
    Except.ok { byteArray := [1, 2], data := [1, 2], needsDecompression := false } from rfl]
  dsimp only
  rw [show convertRawToImage [1, 2] { sampleBEswapped with byteArray := [1, 2] } =
    Except.ok ⟨1, 1, [0, 128]⟩ from convert_restored_sampleBE]
  rfl

/-- The full pass over the little-endian sample dataset. -/
theorem pipeline_sampleLE_eval :
    pipeline sampleLE = Except.ok (sampleLE, ⟨1, 1, [0, 0]⟩) := by
  unfold pipeline
  rw [show extractPixelData sampleLE =
    Except.ok { byteArray := [10, 0], data := [10, 0], needsDecompression := false } from rfl]
  dsimp only
  rw [show convertRawToImage [10, 0] { sampleLE with byteArray := [10, 0] } =
    Except.ok ⟨1, 1, [0, 0]⟩ from convert_sampleLE]
  rfl

/-- C1: under Explicit VR Big Endian, the end-to-end decode of the 2-byte
sample `01 02` yields 513 (the little-endian reading of the original bytes),
not the big-endian value 258 the specification prescribes: extraction
byte-swaps the shared view to `02 01` and the reconstruction then reads it
big-endian again, undoing the normalization. -/
theorem C1_big_endian_sample_decodes_to_513 :
    extractPixelData sampleBE =
      Except.ok { byteArray := [2, 1], data := [2, 1], needsDecompression := false } ∧
    readPixels [2, 1] 1 false = [513] ∧
    pipeline sampleBE = Except.ok (sampleBEswapped, ⟨1, 1, [0, 255]⟩) ∧
    windowIntensity (258 - 2 / 2) (258 + 2 / 2) ((258 : ℤ) : ℚ) = 128 ∧
    (513 : ℤ) ≠ 258 :=
  ⟨rfl, rfl, pipeline_sampleBE_eval, wIntensity258, by decide⟩

/-- C2 counterexample: extraction under Explicit VR Big Endian rewrites the
dataset's backing buffer (from `01 02` to `02 01`), so the conversion is not
side-effect-free and the parsed dataset is not immutable. -/
theorem C2_big_endian_extraction_mutates_buffer :
    extractPixelData sampleBE =
      Except.ok { byteArray := [2, 1], data := [2, 1], needsDecompression := false } ∧
    ([2, 1] : List Nat) ≠ sampleBE.byteArray :=
  ⟨rfl, by decide⟩

/-- C2 amended: a successful extraction leaves the dataset's backing buffer
unchanged for every transfer syntax except Explicit VR Big Endian; under
Explicit VR Big Endian it byte-swaps each 16-bit pair of the pixel-data
region in place through the shared view. -/
theorem C2_extraction_buffer_effect :
    ∀ (ds : DataSet) (r : PixelResult), extractPixelData ds = Except.ok r →
      (ds.transferSyntax ≠ some "1.2.840.10008.1.2.2" → r.byteArray = ds.byteArray) ∧
      (∀ el, ds.pixelData = some el → ds.transferSyntax = some "1.2.840.10008.1.2.2" →
        r.byteArray = ds.byteArray.take el.dataOffset ++
          swapPairs (sliceD ds.byteArray el.dataOffset el.length) ++
          ds.byteArray.drop (el.dataOffset + el.length)) := by
  intro ds r h
  refine ⟨fun hts => extract_ok_byteArray_eq hts h, ?_⟩
  intro el hpd hts
  unfold extractPixelData at h
  rw [hpd] at h
  simp only [hts] at h
  rw [if_pos (by simp)] at h
  split at h
  · exact Except.noConfusion h
  · rw [if_pos trivial] at h
    injection h with h2
    rw [← h2]

/-- C2 witness: on a little-endian dataset the buffer is preserved. -/
theorem C2_extraction_buffer_effect_witness :
    (PixelResult.mk [10, 0] [10, 0] false).byteArray = sampleLE.byteArray :=
  (C2_extraction_buffer_effect sampleLE ⟨[10, 0], [10, 0], false⟩ rfl).1 (by decide)

/-- C3 counterexample: under Explicit VR Big Endian the pipeline is not
idempotent — the first pass byte-swaps the backing buffer in place, so the
second pass decodes 258 where the first decoded 513 and emits a different
raster (hence different PNG bytes, as the PNG container is an injective
function of the raster content). -/
theorem C3_second_pass_output_differs :
    pipeline sampleBE = Except.ok (sampleBEswapped, ⟨1, 1, [0, 255]⟩) ∧
    pipeline sampleBEswapped = Except.ok (sampleBE, ⟨1, 1, [0, 128]⟩) ∧
    RasterOutput.mk 1 1 [0, 255] ≠ ⟨1, 1, [0, 128]⟩ :=
  ⟨pipeline_sampleBE_eval, pipeline_sampleBE_second_eval, by decide⟩

/-- C3 amended: for every dataset whose transfer syntax is not Explicit VR
Big Endian, the pipeline leaves the dataset unchanged and a second pass
returns the identical output (hence byte-identical PNG bytes). -/
theorem C3_pipeline_idempotent_without_big_endian :
    ∀ (ds ds1 : DataSet) (out : RasterOutput),
      ds.transferSyntax ≠ some "1.2.840.10008.1.2.2" →
      pipeline ds = Except.ok (ds1, out) → pipeline ds1 = Except.ok (ds1, out) := by
  intro ds ds1 out hts h
  unfold pipeline at h ⊢
  cases hx : extractPixelData ds with
  | error e => rw [hx] at h; exact Except.noConfusion h
  | ok r =>
    rw [hx] at h
    simp only at h
    have hds : { ds with byteArray := r.byteArray } = ds := by
      rw [extract_ok_byteArray_eq hts hx]
    rw [hds] at h
    cases hc : convertRawToImage r.data ds with
    | error e => rw [hc] at h; exact Except.noConfusion h
    | ok o =>
      rw [hc] at h
      injection h with h2
      injection h2 with h3 h4
      rw [← h3, hx]
      simp only
      rw [hds, hc, h4]

/-- C3 witness: a little-endian dataset converts identically on a second
pass. -/
theorem C3_pipeline_idempotent_witness :
    pipeline sampleLE = Except.ok (sampleLE, ⟨1, 1, [0, 0]⟩) :=
  C3_pipeline_idempotent_without_big_endian sampleLE sampleLE ⟨1, 1, [0, 0]⟩
    (by decide) pipeline_sampleLE_eval

/-- C6 counterexample: with rescale slope 2 and intercept 100 in the dataset,
the emitted intensity of raw sample 10 under window (120, 2) is 0, while the
claimed rescale-then-window pipeline would emit 128 (the rescaled value
2·10 + 100 = 120 sits exactly at the window center): `convertRawToImage`
never reads the rescale attributes. -/
theorem C6_rescale_attributes_ignored :
    convertRawToImage [10, 0] sampleLE = Except.ok ⟨1, 1, [0, 0]⟩ ∧
    windowIntensity (120 - 2 / 2) (120 + 2 / 2)
      (specRescaledSample sampleLE.rescaleSlope sampleLE.rescaleIntercept 10) = 128 ∧
    (0 : Nat) ≠ 128 := by
  refine ⟨convert_sampleLE, ?_, by decide⟩
  unfold specRescaledSample sampleLE sampleBE windowIntensity clamp01
  rw [jsRound_eq_floor]
  norm_num

/-- C6 amended: the raster reconstruction is independent of the dataset's
rescale slope and intercept — every sample is windowed at its raw decoded
value (only a superseded duplicate revision of the service reads the rescale
attributes, and that revision performs histogram equalization instead of the
window/level mapping). -/
theorem C6_output_independent_of_rescale :
    ∀ (px : List Nat) (ds : DataSet) (s1 b1 s2 b2 : Option ℚ),
      convertRawToImage px { ds with rescaleSlope := s1, rescaleIntercept := b1 } =
        convertRawToImage px { ds with rescaleSlope := s2, rescaleIntercept := b2 } :=
  fun _ _ _ _ _ _ => rfl

/-- C7 counterexample: with windowCenter present but equal to 0 (and
windowWidth 100), the reconstruction ignores both dataset attributes and
auto-computes the window from the scanned samples: sample 10 of `[10, 20]`
is emitted as 0 (auto window (15, 10)), not as the 153 the dataset window
(0, 100) would give. -/
theorem C7_present_zero_center_falls_back :
    selectWindow sampleZeroCenter.windowCenter sampleZeroCenter.windowWidth [10, 20] =
      (15, 10) ∧
    ((15 : ℚ), (10 : ℚ)) ≠ ((0 : ℚ), (100 : ℚ)) ∧
    convertRawToImage [10, 0, 20, 0] sampleZeroCenter = Except.ok ⟨2, 1, [0, 0, 255]⟩ ∧
    windowIntensity (0 - 100 / 2) (0 + 100 / 2) 10 = 153 ∧
    (0 : Nat) ≠ 153 := by
  refine ⟨?_, by norm_num [Prod.ext_iff], convert_sampleZeroCenter, ?_, by decide⟩
  · rw [show sampleZeroCenter.windowCenter = some 0 from rfl,
      show sampleZeroCenter.windowWidth = some 100 from rfl]
    rw [selectWindow_fallback (some 0) (some 100) _ (Or.inl (by norm_num))]
    rw [autoMin_10_20, autoMax_10_20]
    norm_num [Prod.ext_iff]
  · unfold windowIntensity clamp01
    rw [jsRound_eq_floor]
    norm_num

/-- C7 amended: the reconstruction uses the dataset window attributes iff
both are present *and non-zero* (JS truthiness) — a present center of 0 also
falls back — and in every other case (either attribute absent or zero,
including the degenerate width 0, which therefore never divides by zero) it
auto-computes `center = (max + min) / 2`, `width = max - min` from the
scanned sample extrema; a dataset with width 0 behaves exactly like one with
no window attributes at all. -/
theorem C7_window_selection_characterization :
    (∀ (wc ww : Option ℚ) (pixels : List ℤ) (c w : ℚ),
      wc = some c → c ≠ 0 → ww = some w → w ≠ 0 →
      selectWindow wc ww pixels = (c, w)) ∧
    (∀ (wc ww : Option ℚ) (pixels : List ℤ),
      wc = none ∨ wc = some 0 ∨ ww = none ∨ ww = some 0 →
      selectWindow wc ww pixels =
        ((autoMax pixels + autoMin pixels) / 2, autoMax pixels - autoMin pixels)) ∧
    (∀ (px : List Nat) (ds : DataSet),
      convertRawToImage px { ds with windowWidth := some 0 } =
        convertRawToImage px { ds with windowCenter := none, windowWidth := none }) := by
  refine ⟨?_, ?_, ?_⟩
  · intro wc ww pixels c w hc hcne hw hwne
    subst hc; subst hw
    simpa using selectWindow_truthy (some c) (some w) pixels (by simpa using hcne)
      (by simpa using hwne)
  · intro wc ww pixels h
    refine selectWindow_fallback wc ww pixels ?_
    rcases h with h | h | h | h <;> simp [h]
  · intro px ds
    unfold convertRawToImage
    dsimp only
    rw [selectWindow_fallback ds.windowCenter (some 0) _ (Or.inr (by simp)),
      selectWindow_fallback none none _ (Or.inl (by simp))]

/-- C7 witness: present non-zero attributes are used as given. -/
theorem C7_window_selection_witness :
    selectWindow (some 5) (some 4) [] = (5, 4) :=
  C7_window_selection_characterization.1 (some 5) (some 4) [] 5 4 rfl (by decide)
    rfl (by decide)

/-- C10: the metadata-note generation drops every dataset element whose byte
length exceeds 128, regardless of its VR or decoded content, in addition to
the tag-set skips and the binary-looking-string heuristic; consequently the
accumulated metadata record only reflects elements of length at most 128. -/
theorem C10_long_elements_excluded :
    (∀ (dn : String → String) (e : MetaElement), 128 < e.length →
      metadataEntry dn e = none) ∧
    (∀ (dn : String → String) (elements : List MetaElement),
      createMetadataMap dn elements =
        createMetadataMap dn (elements.filter fun e => decide (e.length ≤ 128))) :=
  ⟨metadataEntry_long, createMetadataMap_filter⟩

/-- C10 witness: a 129-byte string element is dropped. -/
theorem C10_long_elements_excluded_witness :
    metadataEntry id
      { tag := "x00100010", length := 129, vr := none, floatVal := none,
        uintVal := none, strVal := some "patient", hl7Throws := false,
        hl7Report := none } = none :=
  C10_long_elements_excluded.1 id _ (by decide)

/-- C8: for every applied window with positive width, the emitted intensity
is `round(clamp((v - center + width/2) / width, 0, 1) * 255)`; samples below
`center - width/2` map to 0, samples above `center + width/2` map to 255, and
a sample exactly at the center maps to 128. -/
theorem C8_window_clamp (c w v : ℚ) (hw : 0 < w) :
    windowIntensity (c - w / 2) (c + w / 2) v =
      jsRound (clamp01 ((v - c + w / 2) / w) * 255) ∧
    (v < c - w / 2 → windowIntensity (c - w / 2) (c + w / 2) v = 0) ∧
    (c + w / 2 < v → windowIntensity (c - w / 2) (c + w / 2) v = 255) ∧
    windowIntensity (c - w / 2) (c + w / 2) c = 128 := by
  have hww : (c + w / 2) - (c - w / 2) = w := by ring
  have harg : v - (c - w / 2) = v - c + w / 2 := by ring
  refine ⟨?_, ?_, ?_, ?_⟩
  · unfold windowIntensity
    rw [hww, harg]
  · intro hv
    unfold windowIntensity clamp01
    rw [hww]
    have h1 : (v - (c - w / 2)) / w < 0 := div_neg_of_neg_of_pos (by linarith) hw
    rw [min_eq_right (by linarith), max_eq_left (by linarith)]
    rw [jsRound_eq_floor]
    norm_num
  · intro hv
    unfold windowIntensity clamp01
    rw [hww]
    have h1 : 1 < (v - (c - w / 2)) / w := by
      rw [lt_div_iff₀ hw]; linarith
    rw [min_eq_left (by linarith), max_eq_right (by norm_num)]
    rw [jsRound_eq_floor]
    norm_num
  · unfold windowIntensity clamp01
    rw [hww]
    have h1 : (c - (c - w / 2)) / w = 1 / 2 := by
      rw [div_eq_div_iff (by positivity) (by norm_num)]
      ring
    rw [h1, min_eq_right (by norm_num), max_eq_right (by norm_num)]
    rw [jsRound_eq_floor]
    norm_num

/-- C8 witness: the window (1, 2) maps its center sample to 128. -/
theorem C8_window_clamp_witness :
    (0 : ℚ) < 2 ∧ windowIntensity (1 - 2 / 2) (1 + 2 / 2) 1 = 128 :=
  ⟨by norm_num, (C8_window_clamp 1 2 1 (by norm_num)).2.2.2⟩

/-- Membership in the scan range `[pos, pos + k)`. -/
theorem mem_scanRange {pos k p : Nat} : p ∈ List.range' pos k ↔ pos ≤ p ∧ p < pos + k := by
  rw [List.mem_range']
  constructor
  · rintro ⟨i, hi, rfl⟩; omega
  · rintro ⟨h1, h2⟩; exact ⟨p - pos, by omega, by omega⟩

/-- A successful inner scan found the marker inside the scan bound. -/
theorem scanFrom_eq_some {bytes : List Nat} {a b pos e : Nat}
    (h : scanFrom bytes a b pos = some e) :
    pos ≤ e ∧ e < bytes.length - 2 ∧ bytes.getD e 0 = a ∧ bytes.getD (e + 1) 0 = b := by
  unfold scanFrom at h
  have hmem := List.mem_of_find?_eq_some h
  have hp := List.find?_some h
  rw [mem_scanRange] at hmem
  simp only [Bool.and_eq_true, beq_iff_eq] at hp
  exact ⟨hmem.1, by omega, hp.1, hp.2⟩

/-- A failed inner scan means no marker occurrence inside the scan bound. -/
theorem scanFrom_eq_none {bytes : List Nat} {a b pos : Nat}
    (h : scanFrom bytes a b pos = none) :
    ∀ p, pos ≤ p → p < bytes.length - 2 →
      ¬(bytes.getD p 0 = a ∧ bytes.getD (p + 1) 0 = b) := by
  intro p hp1 hp2 hmatch
  unfold scanFrom at h
  rw [List.find?_eq_none] at h
  have := h p (mem_scanRange.mpr ⟨hp1, by omega⟩)
  simp only [Bool.and_eq_true, beq_iff_eq, not_and] at this
  exact this hmatch.1 hmatch.2

/-- A successful nested scan returns an SOI/EOI pair inside the scan bounds. -/
theorem jpegScan_eq_some {bytes : List Nat} {pos p e : Nat}
    (h : jpegScan bytes pos = some (p, e)) :
    pos ≤ p ∧ p < bytes.length - 2 ∧
    bytes.getD p 0 = 0xFF ∧ bytes.getD (p + 1) 0 = 0xD8 ∧
    p + 2 ≤ e ∧ e < bytes.length - 2 ∧
    bytes.getD e 0 = 0xFF ∧ bytes.getD (e + 1) 0 = 0xD9 := by
  have main : ∀ n pos, bytes.length - 2 - pos ≤ n → ∀ p e,
      jpegScan bytes pos = some (p, e) →
      pos ≤ p ∧ p < bytes.length - 2 ∧
      bytes.getD p 0 = 0xFF ∧ bytes.getD (p + 1) 0 = 0xD8 ∧
      p + 2 ≤ e ∧ e < bytes.length - 2 ∧
      bytes.getD e 0 = 0xFF ∧ bytes.getD (e + 1) 0 = 0xD9 := by
    intro n
    induction n with
    | zero =>
      intro pos hpos p e h
      rw [jpegScan, dif_neg (by omega)] at h
      exact absurd h (by simp)
    | succ n ih =>
      intro pos hpos p e h
      rw [jpegScan] at h
      by_cases h1 : pos < bytes.length - 2
      · rw [dif_pos h1] at h
        by_cases h2 : bytes.getD pos 0 = 0xFF ∧ bytes.getD (pos + 1) 0 = 0xD8
        · rw [if_pos h2] at h
          cases hscan : scanFrom bytes 0xFF 0xD9 (pos + 2) with
          | some e2 =>
            rw [hscan] at h
            injection h with h3
            injection h3 with h4 h5
            subst h4; subst h5
            have hs := scanFrom_eq_some hscan
            exact ⟨Nat.le_refl _, h1, h2.1, h2.2, hs.1, hs.2.1, hs.2.2.1, hs.2.2.2⟩
          | none =>
            rw [hscan] at h
            have := ih (pos + 1) (by omega) p e h
            exact ⟨by omega, this.2.1, this.2.2.1, this.2.2.2.1, this.2.2.2.2.1,
              this.2.2.2.2.2.1, this.2.2.2.2.2.2.1, this.2.2.2.2.2.2.2⟩
        · rw [if_neg h2] at h
          have := ih (pos + 1) (by omega) p e h
          exact ⟨by omega, this.2.1, this.2.2.1, this.2.2.2.1, this.2.2.2.2.1,
            this.2.2.2.2.2.1, this.2.2.2.2.2.2.1, this.2.2.2.2.2.2.2⟩
      · rw [dif_neg h1] at h
        exact absurd h (by simp)
  exact main (bytes.length - 2 - pos) pos (Nat.le_refl _) p e h

/-- A failed nested scan means no SOI/EOI pair exists with both markers
inside the scan bounds. -/
theorem jpegScan_eq_none {bytes : List Nat} {pos : Nat} (h : jpegScan bytes pos = none) :
    ∀ p e, pos ≤ p → p + 2 ≤ e → e < bytes.length - 2 →
      ¬(bytes.getD p 0 = 0xFF ∧ bytes.getD (p + 1) 0 = 0xD8 ∧
        bytes.getD e 0 = 0xFF ∧ bytes.getD (e + 1) 0 = 0xD9) := by
  have main : ∀ n pos, bytes.length - 2 - pos ≤ n → jpegScan bytes pos = none →
      ∀ p e, pos ≤ p → p + 2 ≤ e → e < bytes.length - 2 →
      ¬(bytes.getD p 0 = 0xFF ∧ bytes.getD (p + 1) 0 = 0xD8 ∧
        bytes.getD e 0 = 0xFF ∧ bytes.getD (e + 1) 0 = 0xD9) := by
    intro n
    induction n with
    | zero =>
      intro pos hpos _ p e hp1 hp2 hp3 _
      omega
    | succ n ih =>
      intro pos hpos h p e hp1 hp2 hp3 hm
      rw [jpegScan] at h
      by_cases h1 : pos < bytes.length - 2
      · rw [dif_pos h1] at h
        by_cases h2 : bytes.getD pos 0 = 0xFF ∧ bytes.getD (pos + 1) 0 = 0xD8
        · rw [if_pos h2] at h
          cases hscan : scanFrom bytes 0xFF 0xD9 (pos + 2) with
          | some e2 => rw [hscan] at h; exact absurd h (by simp)
          | none =>
            rw [hscan] at h
            rcases Nat.eq_or_lt_of_le hp1 with rfl | hlt
            · exact scanFrom_eq_none hscan e hp2 (by omega) ⟨hm.2.2.1, hm.2.2.2⟩
            · exact ih (pos + 1) (by omega) h p e (by omega) hp2 hp3 hm
        · rw [if_neg h2] at h
          rcases Nat.eq_or_lt_of_le hp1 with rfl | hlt
          · exact h2 ⟨hm.1, hm.2.1⟩
          · exact ih (pos + 1) (by omega) h p e (by omega) hp2 hp3 hm
      · omega
  exact main (bytes.length - 2 - pos) pos (Nat.le_refl _) h

/-- C5 counterexample: the buffer `FF D8 FF D9` contains a complete SOI/EOI
pair, yet the scan throws the malformed-stream error because both loops stop
at `length - 2` and never examine a marker occupying the final two bytes. -/
theorem C5_eoi_in_final_bytes_missed :
    extractJPEGLosslessData [0xFF, 0xD8, 0xFF, 0xD9] 0 =
      Except.error "Could not find valid JPEG Lossless frame in DICOM data" ∧
    [0xFF, 0xD8, 0xFF, 0xD9].getD 0 0 = 0xFF ∧
    [0xFF, 0xD8, 0xFF, 0xD9].getD 1 0 = 0xD8 ∧
    [0xFF, 0xD8, 0xFF, 0xD9].getD 2 0 = 0xFF ∧
    [0xFF, 0xD8, 0xFF, 0xD9].getD 3 0 = 0xD9 := by
  refine ⟨?_, by decide, by decide, by decide, by decide⟩
  unfold extractJPEGLosslessData
  rw [show jpegScan [0xFF, 0xD8, 0xFF, 0xD9] 0 = none from ?_]
  rw [jpegScan, dif_pos (by norm_num), if_pos ⟨rfl, rfl⟩,
    show scanFrom [0xFF, 0xD8, 0xFF, 0xD9] 0xFF 0xD9 2 = none from by decide]
  rw [jpegScan, dif_pos (by norm_num), if_neg (by decide)]
  rw [jpegScan, dif_neg (by norm_num)]

/-- C5 amended: the JPEG Lossless extraction scans byte-by-byte from the
pixel-data offset, but both loops are bounded by `length - 2`, so it succeeds
iff an SOI marker at `p` is followed by an EOI marker at `e ≥ p + 2` with
`e + 2 < length` — i.e. markers occupying the final two bytes of the buffer
are never found, and the malformed-stream error is raised exactly when no
such in-bound pair exists.  On success it returns the inclusive SOI..EOI
range with `needsDecompression = true`. -/
theorem C5_scan_characterization :
    ∀ (bytes : List Nat) (off : Nat),
      ((∃ r, extractJPEGLosslessData bytes off = Except.ok r) ↔
        ∃ p e, off ≤ p ∧ p + 2 ≤ e ∧ e + 2 < bytes.length ∧
          bytes.getD p 0 = 0xFF ∧ bytes.getD (p + 1) 0 = 0xD8 ∧
          bytes.getD e 0 = 0xFF ∧ bytes.getD (e + 1) 0 = 0xD9) ∧
      (∀ p e, jpegScan bytes off = some (p, e) →
        extractJPEGLosslessData bytes off =
          Except.ok (sliceD bytes p (e - p + 2), true) ∧
        off ≤ p ∧ bytes.getD p 0 = 0xFF ∧ bytes.getD (p + 1) 0 = 0xD8 ∧
        p + 2 ≤ e ∧ e + 2 < bytes.length ∧
        bytes.getD e 0 = 0xFF ∧ bytes.getD (e + 1) 0 = 0xD9) := by
  intro bytes off
  constructor
  · constructor
    · rintro ⟨r, hr⟩
      unfold extractJPEGLosslessData at hr
      cases hj : jpegScan bytes off with
      | none => rw [hj] at hr; exact absurd hr (by simp)
      | some pe =>
        obtain ⟨p, e⟩ := pe
        have hs := jpegScan_eq_some hj
        exact ⟨p, e, hs.1, hs.2.2.2.2.1, by omega, hs.2.2.1, hs.2.2.2.1,
          hs.2.2.2.2.2.2.1, hs.2.2.2.2.2.2.2⟩
    · rintro ⟨p, e, h1, h2, h3, h4, h5, h6, h7⟩
      cases hj : jpegScan bytes off with
      | some pe =>
        obtain ⟨a, b⟩ := pe
        refine ⟨(sliceD bytes a (b - a + 2), true), ?_⟩
        unfold extractJPEGLosslessData
        rw [hj]
      | none =>
        exact absurd ⟨h4, h5, h6, h7⟩ (jpegScan_eq_none hj p e h1 h2 (by omega))
  · intro p e hj
    have hs := jpegScan_eq_some hj
    refine ⟨?_, hs.1, hs.2.2.1, hs.2.2.2.1, hs.2.2.2.2.1, by omega,
      hs.2.2.2.2.2.2.1, hs.2.2.2.2.2.2.2⟩
    unfold extractJPEGLosslessData
    rw [hj]

/-- C5 witness: a buffer with a trailing byte after the EOI marker is
extracted as the inclusive SOI..EOI range. -/
theorem C5_scan_characterization_witness :
    extractJPEGLosslessData [0xFF, 0xD8, 0x00, 0xFF, 0xD9, 0x00] 0 =
      Except.ok (sliceD [0xFF, 0xD8, 0x00, 0xFF, 0xD9, 0x00] 0 (3 - 0 + 2), true) := by
  have hj : jpegScan [0xFF, 0xD8, 0x00, 0xFF, 0xD9, 0x00] 0 = some (0, 3) := by
    rw [jpegScan, dif_pos (by norm_num), if_pos ⟨rfl, rfl⟩,
      show scanFrom [0xFF, 0xD8, 0x00, 0xFF, 0xD9, 0x00] 0xFF 0xD9 2 = some 3 from
        by decide]
  exact ((C5_scan_characterization [0xFF, 0xD8, 0x00, 0xFF, 0xD9, 0x00] 0).2 0 3 hj).1

/-- The 4-byte little-endian length encoding used by encapsulated item
headers. -/
def le4 (n : Nat) : List Nat :=
  [n % 256, n / 256 % 256, n / 65536 % 256, n / 16777216 % 256]

/-- Lookup past a prefix of known length. -/
theorem getD_append_add (l1 l2 : List Nat) (k : Nat) :
    (l1 ++ l2).getD (l1.length + k) 0 = l2.getD k 0 := by
  rw [List.getD_eq_getElem?_getD, List.getD_eq_getElem?_getD,
    List.getElem?_append_right (by omega)]
  have h : l1.length + k - l1.length = k := by omega
  rw [h]

/-- A byte read at a natural-number position. -/
theorem byteAt_natCast (l : List Nat) (n : Nat) :
    byteAt l (n : Int) = l.getD n 0 % 256 := by
  unfold byteAt
  rw [if_pos (by positivity), Int.toNat_natCast]

/-- A byte read past a prefix of known length. -/
theorem byteAt_append_add (pre rest : List Nat) (k : Nat) :
    byteAt (pre ++ rest) ((pre.length : Int) + k) = rest.getD k 0 % 256 := by
  have h1 : ((pre.length : Int) + k) = ((pre.length + k : Nat) : Int) := by push_cast; ring
  rw [h1, byteAt_natCast, getD_append_add]

/-- C4: for every encapsulated JPEG 2000 pixel-data element laid out as a
Basic Offset Table fragment (item header `FE FF 00 E0`, 4-byte little-endian
length, table bytes) followed by a codestream fragment (item header, 4-byte
little-endian length `N`, then the `N` payload bytes) and arbitrary trailing
bytes, extraction returns exactly the codestream payload — excluding the
table and both 8-byte item headers — with `needsDecompression = true`. -/
theorem C4_jpeg2000_offset_table_skip
    (pre bot payload suffix : List Nat)
    (hL : bot.length < 2 ^ 31) (hN : payload.length < 2 ^ 31) (hNpos : payload ≠ []) :
    extractJPEG2000Data
      (pre ++ ([0xFE, 0xFF, 0x00, 0xE0] ++ (le4 bot.length ++ (bot ++
        ([0xFE, 0xFF, 0x00, 0xE0] ++ (le4 payload.length ++ (payload ++ suffix)))))))
      pre.length = Except.ok (payload, true) := by
  set L := bot.length with hLdef
  set N := payload.length with hNdef
  set B := pre ++ ([0xFE, 0xFF, 0x00, 0xE0] ++ (le4 L ++ (bot ++
    ([0xFE, 0xFF, 0x00, 0xE0] ++ (le4 N ++ (payload ++ suffix)))))) with hBdef
  have hNpos' : 0 < N := by
    rw [hNdef]; exact List.length_pos.mpr hNpos
  have hBlen : B.length = pre.length + 16 + L + N + suffix.length := by
    simp [hBdef, le4]
    omega
  have hB2 : B = (pre ++ [0xFE, 0xFF, 0x00, 0xE0] ++ le4 L ++ bot) ++
      ([0xFE, 0xFF, 0x00, 0xE0] ++ (le4 N ++ (payload ++ suffix))) := by
    rw [hBdef]; simp [List.append_assoc]
  have hP1len : (pre ++ [0xFE, 0xFF, 0x00, 0xE0] ++ le4 L ++ bot).length =
      pre.length + 8 + L := by
    simp [le4]; omega
  have hB3 : B = (pre ++ [0xFE, 0xFF, 0x00, 0xE0] ++ le4 L ++ bot ++
      [0xFE, 0xFF, 0x00, 0xE0] ++ le4 N) ++ (payload ++ suffix) := by
    rw [hBdef]; simp [List.append_assoc]
  have hP2len : (pre ++ [0xFE, 0xFF, 0x00, 0xE0] ++ le4 L ++ bot ++
      [0xFE, 0xFF, 0x00, 0xE0] ++ le4 N).length = pre.length + 16 + L := by
    simp [le4]; omega
  -- bytes of the first item header
  have m0 : byteAt B ((pre.length : Int)) = 0xFE := by
    rw [show ((pre.length : Nat) : Int) = ((pre.length + 0 : Nat) : Int) from by push_cast; ring,
      byteAt_natCast, hBdef, getD_append_add]
    rfl
  have m1 : byteAt B ((pre.length : Int) + 1) = 0xFF := by
    rw [show (pre.length : Int) + 1 = ((pre.length + 1 : Nat) : Int) from by push_cast; ring,
      byteAt_natCast, hBdef, getD_append_add]
    rfl
  have m2 : byteAt B ((pre.length : Int) + 2) = 0x00 := by
    rw [show (pre.length : Int) + 2 = ((pre.length + 2 : Nat) : Int) from by push_cast; ring,
      byteAt_natCast, hBdef, getD_append_add]
    rfl
  have m3 : byteAt B ((pre.length : Int) + 3) = 0xE0 := by
    rw [show (pre.length : Int) + 3 = ((pre.length + 3 : Nat) : Int) from by push_cast; ring,
      byteAt_natCast, hBdef, getD_append_add]
    rfl
  -- the Basic Offset Table length read
  have hreadL : readInt32LE B ((pre.length : Int) + 4) = (L : Int) := by
    unfold readInt32LE
    rw [show (pre.length : Int) + 4 + 1 = (pre.length : Int) + 5 from by ring,
      show (pre.length : Int) + 4 + 2 = (pre.length : Int) + 6 from by ring,
      show (pre.length : Int) + 4 + 3 = (pre.length : Int) + 7 from by ring]
    rw [show (pre.length : Int) + 4 = ((pre.length + 4 : Nat) : Int) from by push_cast; ring,
      show (pre.length : Int) + 5 = ((pre.length + 5 : Nat) : Int) from by push_cast; ring,
      show (pre.length : Int) + 6 = ((pre.length + 6 : Nat) : Int) from by push_cast; ring,
      show (pre.length : Int) + 7 = ((pre.length + 7 : Nat) : Int) from by push_cast; ring]
    rw [byteAt_natCast, byteAt_natCast, byteAt_natCast, byteAt_natCast, hBdef,
      getD_append_add, getD_append_add, getD_append_add, getD_append_add]
    simp only [le4, List.cons_append, List.nil_append, List.getD_cons_succ,
      List.getD_cons_zero]
    unfold jsToInt32
    have e1 : L % 256 % 256 + 256 * (L / 256 % 256 % 256) + 65536 * (L / 65536 % 256 % 256) +
        16777216 * (L / 16777216 % 256 % 256) = L := by omega
    rw [e1, if_pos (by omega)]
    rw [Nat.mod_eq_of_lt (by omega)]
  -- bytes of the second item header
  have n0 : byteAt B ((pre.length : Int) + 8 + (L : Int)) = 0xFE := by
    rw [show (pre.length : Int) + 8 + (L : Int) = ((pre.length + 8 + L + 0 : Nat) : Int) from
        by push_cast; ring,
      byteAt_natCast, hB2,
      show pre.length + 8 + L + 0 =
        (pre ++ [0xFE, 0xFF, 0x00, 0xE0] ++ le4 L ++ bot).length + 0 from by rw [hP1len],
      getD_append_add]
    rfl
  have n1 : byteAt B ((pre.length : Int) + 8 + (L : Int) + 1) = 0xFF := by
    rw [show (pre.length : Int) + 8 + (L : Int) + 1 =
        ((pre.length + 8 + L + 1 : Nat) : Int) from by push_cast; ring,
      byteAt_natCast, hB2,
      show pre.length + 8 + L + 1 =
        (pre ++ [0xFE, 0xFF, 0x00, 0xE0] ++ le4 L ++ bot).length + 1 from by rw [hP1len],
      getD_append_add]
    rfl
  have n2 : byteAt B ((pre.length : Int) + 8 + (L : Int) + 2) = 0x00 := by
    rw [show (pre.length : Int) + 8 + (L : Int) + 2 =
        ((pre.length + 8 + L + 2 : Nat) : Int) from by push_cast; ring,
      byteAt_natCast, hB2,
      show pre.length + 8 + L + 2 =
        (pre ++ [0xFE, 0xFF, 0x00, 0xE0] ++ le4 L ++ bot).length + 2 from by rw [hP1len],
      getD_append_add]
    rfl
  have n3 : byteAt B ((pre.length : Int) + 8 + (L : Int) + 3) = 0xE0 := by
    rw [show (pre.length : Int) + 8 + (L : Int) + 3 =
        ((pre.length + 8 + L + 3 : Nat) : Int) from by push_cast; ring,
      byteAt_natCast, hB2,
      show pre.length + 8 + L + 3 =
        (pre ++ [0xFE, 0xFF, 0x00, 0xE0] ++ le4 L ++ bot).length + 3 from by rw [hP1len],
      getD_append_add]
    rfl
  -- the codestream fragment length read
  have hreadN : readInt32LE B ((pre.length : Int) + 8 + (L : Int) + 4) = (N : Int) := by
    unfold readInt32LE
    rw [show (pre.length : Int) + 8 + (L : Int) + 4 + 1 =
        (pre.length : Int) + 8 + (L : Int) + 5 from by ring,
      show (pre.length : Int) + 8 + (L : Int) + 4 + 2 =
        (pre.length : Int) + 8 + (L : Int) + 6 from by ring,
      show (pre.length : Int) + 8 + (L : Int) + 4 + 3 =
        (pre.length : Int) + 8 + (L : Int) + 7 from by ring]
    rw [show (pre.length : Int) + 8 + (L : Int) + 4 =
        ((pre.length + 8 + L + 4 : Nat) : Int) from by push_cast; ring,
      show (pre.length : Int) + 8 + (L : Int) + 5 =
        ((pre.length + 8 + L + 5 : Nat) : Int) from by push_cast; ring,
      show (pre.length : Int) + 8 + (L : Int) + 6 =
        ((pre.length + 8 + L + 6 : Nat) : Int) from by push_cast; ring,
      show (pre.length : Int) + 8 + (L : Int) + 7 =
        ((pre.length + 8 + L + 7 : Nat) : Int) from by push_cast; ring]
    rw [byteAt_natCast, byteAt_natCast, byteAt_natCast, byteAt_natCast, hB2,
      show pre.length + 8 + L + 4 =
        (pre ++ [0xFE, 0xFF, 0x00, 0xE0] ++ le4 L ++ bot).length + 4 from by rw [hP1len],
      show pre.length + 8 + L + 5 =
        (pre ++ [0xFE, 0xFF, 0x00, 0xE0] ++ le4 L ++ bot).length + 5 from by rw [hP1len],
      show pre.length + 8 + L + 6 =
        (pre ++ [0xFE, 0xFF, 0x00, 0xE0] ++ le4 L ++ bot).length + 6 from by rw [hP1len],
      show pre.length + 8 + L + 7 =
        (pre ++ [0xFE, 0xFF, 0x00, 0xE0] ++ le4 L ++ bot).length + 7 from by rw [hP1len],
      getD_append_add, getD_append_add, getD_append_add, getD_append_add]
    simp only [le4, List.cons_append, List.nil_append, List.getD_cons_succ,
      List.getD_cons_zero]
    unfold jsToInt32
    have e1 : N % 256 % 256 + 256 * (N / 256 % 256 % 256) + 65536 * (N / 65536 % 256 % 256) +
        16777216 * (N / 16777216 % 256 % 256) = N := by omega
    rw [e1, if_pos (by omega)]
    rw [Nat.mod_eq_of_lt (by omega)]
  -- guards
  have g1 : ((pre.length : Int)) + 8 + (L : Int) < (B.length : Int) - 8 := by
    rw [hBlen]; push_cast; omega
  have g2 : (0 : Int) ≤ (N : Int) := by positivity
  have g3 : ((pre.length : Int)) + 8 + (L : Int) + 8 + (N : Int) ≤ (B.length : Int) := by
    rw [hBlen]; push_cast; omega
  -- now evaluate the extraction
  unfold extractJPEG2000Data
  dsimp only
  rw [hreadL]
  rw [if_pos (And.intro m0 (And.intro m1 (And.intro m2 m3)))]
  rw [if_pos (And.intro g1 (And.intro n0 (And.intro n1 (And.intro n2 n3))))]
  rw [hreadN]
  rw [if_pos (And.intro g2 g3)]
  rw [show ((pre.length : Int)) + 8 + (L : Int) + 8 = ((pre.length + 16 + L : Nat) : Int) from
      by push_cast; ring,
    Int.toNat_natCast, Int.toNat_natCast]
  unfold sliceD
  rw [hB3, ← hP2len, List.drop_left, hNdef, List.take_left]

/-- C4 witness: a 4-byte offset table followed by a 2-byte codestream. -/
theorem C4_jpeg2000_offset_table_skip_witness :
    extractJPEG2000Data
      ([] ++ ([0xFE, 0xFF, 0x00, 0xE0] ++ (le4 ([9, 9, 9, 9] : List Nat).length ++
        ([9, 9, 9, 9] ++ ([0xFE, 0xFF, 0x00, 0xE0] ++ (le4 ([0xAB, 0xCD] : List Nat).length ++
          ([0xAB, 0xCD] ++ ([] : List Nat))))))))
      ([] : List Nat).length = Except.ok ([0xAB, 0xCD], true) :=
  C4_jpeg2000_offset_table_skip [] [9, 9, 9, 9] [0xAB, 0xCD] []
    (by decide) (by decide) (by decide)

/-- Shift-right distributes over XOR. -/
theorem shiftRight_xor_distrib (a b n : Nat) :
    (a ^^^ b) >>> n = (a >>> n) ^^^ (b >>> n) :=
  Nat.eq_of_testBit_eq fun i => by simp [Nat.testBit_shiftRight, Nat.testBit_xor]

/-- Masking with `0xff` is reduction mod 256. -/
theorem and255_eq_mod (c : Nat) : c &&& 255 = c % 256 := by
  have h := Nat.and_pow_two_sub_one_eq_mod c 8
  norm_num at h
  exact h

/-- Cancel a common left XOR operand. -/
theorem xor_left_cancel {a x y : Nat} (h : a ^^^ x = a ^^^ y) : x = y := by
  have h2 := congrArg (fun z => a ^^^ z) h
  simpa [← Nat.xor_assoc, Nat.xor_self, Nat.zero_xor] using h2

/-- Cancel a common right XOR operand. -/
theorem xor_right_cancel {a x y : Nat} (h : x ^^^ a = y ^^^ a) : x = y := by
  rw [Nat.xor_comm x a, Nat.xor_comm y a] at h
  exact xor_left_cancel h

/-- One table round stays inside 32 bits. -/
theorem crcBitStep_lt {c : Nat} (h : c < 2 ^ 32) : crcBitStep c < 2 ^ 32 := by
  have hs : c >>> 1 < 2 ^ 32 := by
    rw [Nat.shiftRight_eq_div_pow]
    exact lt_of_le_of_lt (Nat.div_le_self _ _) h
  unfold crcBitStep
  split
  · exact Nat.xor_lt_two_pow (by norm_num) hs
  · exact hs

/-- Table entries are 32-bit values. -/
theorem crcTableEntry_lt {i : Nat} (h : i < 2 ^ 32) : crcTableEntry i < 2 ^ 32 := by
  unfold crcTableEntry
  exact crcBitStep_lt (crcBitStep_lt (crcBitStep_lt (crcBitStep_lt (crcBitStep_lt
    (crcBitStep_lt (crcBitStep_lt (crcBitStep_lt h)))))))

/-- The inverse top-byte lookup: the table index whose entry has the given
top byte. -/
def topIndex (v : Nat) : Nat :=
  (((List.range 256).find? fun j => crcTableEntry j >>> 24 == v).getD 0)

set_option maxRecDepth 4000 in
/-- The top byte of a table entry determines its index: the 256 top bytes
are pairwise distinct (verified by evaluation). -/
theorem topIndex_roundtrip : ∀ t, t < 256 → topIndex (crcTableEntry t >>> 24) = t := by
  decide

/-- Table entries with equal top bytes come from the same index. -/
theorem crcTableEntry_top_inj {t1 t2 : Nat} (h1 : t1 < 256) (h2 : t2 < 256)
    (h : crcTableEntry t1 >>> 24 = crcTableEntry t2 >>> 24) : t1 = t2 := by
  have e1 := topIndex_roundtrip t1 h1
  have e2 := topIndex_roundtrip t2 h2
  rw [← e1, ← e2, h]

/-- One CRC step stays inside 32 bits. -/
theorem crcUpdate_lt {crc : Nat} (h : crc < 2 ^ 32) (b : Nat) : crcUpdate crc b < 2 ^ 32 := by
  unfold crcUpdate
  refine Nat.xor_lt_two_pow (crcTableEntry_lt ?_) ?_
  · exact lt_of_le_of_lt Nat.and_le_right (by norm_num)
  · rw [Nat.shiftRight_eq_div_pow]
    exact lt_of_le_of_lt (Nat.div_le_self _ _) h

/-- The top byte of a CRC step is the top byte of the table entry it mixed
in: the shifted previous state cannot reach bits 24..31. -/
theorem crcUpdate_top {crc b : Nat} (h : crc < 2 ^ 32) :
    crcUpdate crc b >>> 24 = crcTableEntry ((crc ^^^ b) &&& 255) >>> 24 := by
  unfold crcUpdate
  rw [shiftRight_xor_distrib]
  have h32 : (crc >>> 8) >>> 24 = 0 := by
    rw [← Nat.shiftRight_add, Nat.shiftRight_eq_div_pow]
    exact Nat.div_eq_of_lt h
  rw [h32, Nat.xor_zero]

/-- A CRC step is injective in the running state. -/
theorem crcUpdate_inj_state {b c1 c2 : Nat} (h1 : c1 < 2 ^ 32) (h2 : c2 < 2 ^ 32)
    (h : crcUpdate c1 b = crcUpdate c2 b) : c1 = c2 := by
  have hi1 : (c1 ^^^ b) &&& 255 < 256 := lt_of_le_of_lt Nat.and_le_right (by norm_num)
  have hi2 : (c2 ^^^ b) &&& 255 < 256 := lt_of_le_of_lt Nat.and_le_right (by norm_num)
  have htop : crcTableEntry ((c1 ^^^ b) &&& 255) >>> 24 =
      crcTableEntry ((c2 ^^^ b) &&& 255) >>> 24 := by
    rw [← crcUpdate_top h1, ← crcUpdate_top h2, h]
  have hidx : (c1 ^^^ b) &&& 255 = (c2 ^^^ b) &&& 255 :=
    crcTableEntry_top_inj hi1 hi2 htop
  have hhi : c1 >>> 8 = c2 >>> 8 := by
    have h3 := h
    unfold crcUpdate at h3
    rw [hidx] at h3
    exact xor_left_cancel h3
  have hlow : c1 &&& 255 = c2 &&& 255 := by
    have h4 : (c1 &&& 255) ^^^ (b &&& 255) = (c2 &&& 255) ^^^ (b &&& 255) := by
      rw [← Nat.and_xor_distrib_right, ← Nat.and_xor_distrib_right]
      exact hidx
    exact xor_right_cancel h4
  have d1 : c1 / 256 = c2 / 256 := by
    have := hhi
    rw [Nat.shiftRight_eq_div_pow, Nat.shiftRight_eq_div_pow] at this
    norm_num at this
    exact this
  have d2 : c1 % 256 = c2 % 256 := by
    rw [and255_eq_mod, and255_eq_mod] at hlow
    exact hlow
  omega

/-- A CRC step separates states mixed with different bytes. -/
theorem crcUpdate_inj_byte {crc b1 b2 : Nat} (hcrc : crc < 2 ^ 32)
    (hb1 : b1 < 256) (hb2 : b2 < 256) (hne : b1 ≠ b2) :
    crcUpdate crc b1 ≠ crcUpdate crc b2 := by
  intro h
  have hi1 : (crc ^^^ b1) &&& 255 < 256 := lt_of_le_of_lt Nat.and_le_right (by norm_num)
  have hi2 : (crc ^^^ b2) &&& 255 < 256 := lt_of_le_of_lt Nat.and_le_right (by norm_num)
  have htop : crcTableEntry ((crc ^^^ b1) &&& 255) >>> 24 =
      crcTableEntry ((crc ^^^ b2) &&& 255) >>> 24 := by
    rw [← crcUpdate_top hcrc, ← crcUpdate_top hcrc, h]
  have hidx := crcTableEntry_top_inj hi1 hi2 htop
  rw [Nat.and_xor_distrib_right, Nat.and_xor_distrib_right] at hidx
  have hb : b1 &&& 255 = b2 &&& 255 := xor_left_cancel hidx
  rw [and255_eq_mod, and255_eq_mod, Nat.mod_eq_of_lt hb1, Nat.mod_eq_of_lt hb2] at hb
  exact hne hb

/-- The CRC fold keeps the state inside 32 bits. -/
theorem foldl_crcUpdate_lt (l : List Nat) :
    ∀ {init : Nat}, init < 2 ^ 32 → l.foldl crcUpdate init < 2 ^ 32 := by
  induction l with
  | nil => exact fun h => h
  | cons a t ih => exact fun h => ih (crcUpdate_lt h a)

/-- The CRC fold is injective in its initial state. -/
theorem foldl_crcUpdate_inj (l : List Nat) :
    ∀ {c1 c2 : Nat}, c1 < 2 ^ 32 → c2 < 2 ^ 32 → c1 ≠ c2 →
      l.foldl crcUpdate c1 ≠ l.foldl crcUpdate c2 := by
  induction l with
  | nil => exact fun _ _ hne => hne
  | cons a t ih =>
    intro c1 c2 h1 h2 hne
    simp only [List.foldl_cons]
    exact ih (crcUpdate_lt h1 a) (crcUpdate_lt h2 a)
      fun he => hne (crcUpdate_inj_state h1 h2 he)

/-- Checksums are 32-bit values. -/
theorem calculateCRC_lt (data : List Nat) : calculateCRC data < 2 ^ 32 := by
  unfold calculateCRC
  exact Nat.xor_lt_two_pow (foldl_crcUpdate_lt data (by norm_num)) (by norm_num)

/-- Changing one in-range byte of the input changes the checksum. -/
theorem calculateCRC_set_ne (type data : List Nat) (i b : Nat)
    (hi : i < data.length) (hd : data.getD i 0 < 256) (hb : b < 256)
    (hne : b ≠ data.getD i 0) :
    calculateCRC (type ++ data.set i b) ≠ calculateCRC (type ++ data) := by
  have hgetD : data.getD i 0 = data[i] := by
    rw [List.getD_eq_getElem?_getD, List.getElem?_eq_getElem hi]
    rfl
  have e1 : type ++ data.set i b = (type ++ data.take i) ++ b :: data.drop (i + 1) := by
    rw [List.set_eq_take_cons_drop b hi, List.append_assoc]
  have e2 : type ++ data = (type ++ data.take i) ++ data.getD i 0 :: data.drop (i + 1) := by
    conv_lhs => rw [← List.take_append_drop i data, List.drop_eq_getElem_cons hi]
    rw [List.append_assoc, hgetD]
  unfold calculateCRC
  intro h
  have h2 := xor_right_cancel h
  rw [e1, e2] at h2
  simp only [List.foldl_append, List.foldl_cons] at h2
  have hs : (data.take i).foldl crcUpdate (type.foldl crcUpdate 0xffffffff) < 2 ^ 32 :=
    foldl_crcUpdate_lt _ (foldl_crcUpdate_lt _ (by norm_num))
  exact foldl_crcUpdate_inj (data.drop (i + 1))
    (crcUpdate_lt hs b) (crcUpdate_lt hs _)
    (crcUpdate_inj_byte hs hb hd hne) h2

/-- Four big-endian bytes determine a 32-bit value. -/
theorem toBytes4_inj {x y : Nat} (hx : x < 2 ^ 32) (hy : y < 2 ^ 32)
    (h : toBytes x 4 = toBytes y 4) : x = y := by
  simp only [toBytes, List.cons_append, List.nil_append, List.cons.injEq, and_true] at h
  rw [and255_eq_mod, and255_eq_mod, and255_eq_mod, and255_eq_mod, and255_eq_mod,
    and255_eq_mod, and255_eq_mod, and255_eq_mod] at h
  simp only [Nat.shiftRight_eq_div_pow] at h
  norm_num at h
  omega

/-- C9: every chunk from `createPNGChunk` is laid out as a 4-byte big-endian
length, the ASCII type, the data, then the big-endian CRC-32 over type ++
data computed with the standard reflected-0xEDB88320 / init 0xFFFFFFFF /
final-XOR 0xFFFFFFFF algorithm; and changing any single in-range data byte
changes the computed CRC, so it no longer matches the emitted CRC bytes. -/
theorem C9_png_chunk_layout_and_crc (type data : List Nat) (i b : Nat)
    (hi : i < data.length) (hd : data.getD i 0 < 256) (hb : b < 256)
    (hne : b ≠ data.getD i 0) :
    createPNGChunk type data =
      toBytes data.length 4 ++ type ++ data ++ toBytes (calculateCRC (type ++ data)) 4 ∧
    calculateCRC (type ++ data.set i b) ≠ calculateCRC (type ++ data) ∧
    toBytes (calculateCRC (type ++ data.set i b)) 4 ≠
      toBytes (calculateCRC (type ++ data)) 4 := by
  refine ⟨rfl, calculateCRC_set_ne type data i b hi hd hb hne, ?_⟩
  intro h
  exact calculateCRC_set_ne type data i b hi hd hb hne
    (toBytes4_inj (calculateCRC_lt _) (calculateCRC_lt _) h)

/-- C9 witness: corrupting the single data byte of a tiny IDAT chunk changes
its CRC. -/
theorem C9_png_chunk_layout_and_crc_witness :
    calculateCRC ([73, 68, 65, 84] ++ ([0] : List Nat).set 0 1) ≠
      calculateCRC ([73, 68, 65, 84] ++ ([0] : List Nat)) :=
  (C9_png_chunk_layout_and_crc [73, 68, 65, 84] [0] 0 1
    (by decide) (by decide) (by decide) (by decide)).2.1

end DicomImporter